import Mathlib

/-!
Verification development for the photo-processing batch pipeline
(`photo_processor.py`).  The Python source is shallowly embedded: filenames
are lists of characters, `pathlib` stem/suffix splitting follows CPython's
implementation, filesystem and imaging-library effects are explicit
parameters, Python `float` arithmetic on small exact values is modelled by
exact rationals, and Python `int()` truncation on nonnegative values is
`Int.floor`.
-/

namespace PhotoProc

/-- Filenames are modelled as lists of characters. -/
abbrev FName := List Char

/-- The reserved marker inserted before the extension of derived outputs:
the literal `'.min'` from `process_photo` line 25 and the stem filter in
`find_images` line 109. -/
def minMark : FName := ['.', 'm', 'i', 'n']

/-- The allowed extensions from `find_images` line 104: the Python set
literal `{'.jpg', '.jpeg', '.JPG', '.JPEG'}`; membership is case-sensitive. -/
def allowedExts : List FName :=
  [ ['.', 'j', 'p', 'g'],
    ['.', 'j', 'p', 'e', 'g'],
    ['.', 'J', 'P', 'G'],
    ['.', 'J', 'P', 'E', 'G'] ]

/-- Index of the last `'.'` in a filename, as CPython's `str.rfind('.')`
(restricted to found indices; `none` when there is no dot). -/
def lastDotIdx (name : FName) : Option Nat :=
  ((List.range name.length).filter (fun i => name.getD i ' ' == '.')).getLast?

/-- CPython `PurePath.stem`: the final component without its suffix.  The
suffix exists only when the last dot sits at an index `i` with
`0 < i < len(name) - 1`. -/
def pyStem (name : FName) : FName :=
  match lastDotIdx name with
  | some i => if 0 < i ∧ i < name.length - 1 then name.take i else name
  | none => name

/-- CPython `PurePath.suffix`: the extension of the final component, the
empty list when the last dot is leading, trailing or absent. -/
def pySuffix (name : FName) : FName :=
  match lastDotIdx name with
  | some i => if 0 < i ∧ i < name.length - 1 then name.drop i else []
  | none => []

/-- A filesystem path: the directory components and the final name. -/
structure PyPath where
  dir : List FName
  name : FName
deriving DecidableEq

/-- `PurePath.with_name`: replace the final component, keep the directory. -/
def withName (p : PyPath) (n : FName) : PyPath :=
  { dir := p.dir, name := n }

/-- Line 25 of `process_photo`:
`min_path = filepath.with_name(filepath.stem + '.min' + filepath.suffix)`. -/
def minPath (p : PyPath) : PyPath :=
  withName p (pyStem p.name ++ (minMark ++ pySuffix p.name))

/-- The eligibility filter of `find_images` lines 108-115:
`f.suffix in extensions and not f.stem.endswith('.min')`. -/
def isEligible (name : FName) : Bool :=
  decide (pySuffix name ∈ allowedExts) && ! (minMark.isSuffixOf (pyStem name))

/-- Lexicographic comparison on character lists, used to model Python's
`sorted` over paths. -/
def lexLe : FName → FName → Bool
  | [], _ => true
  | _ :: _, [] => false
  | a :: as, b :: bs => if a < b then true else if b < a then false else lexLe as bs

/-- Flatten a path to one character list for ordering. -/
def pathChars (p : PyPath) : FName :=
  (p.dir.foldr (fun d acc => d ++ (['/'] ++ acc)) []) ++ p.name

/-- Path ordering for the final `sorted(images)` of `find_images`. -/
def pathLe (p q : PyPath) : Bool :=
  lexLe (pathChars p) (pathChars q)

/-- Insert into a sorted list (model of sorting; stable for our purposes). -/
def insertSorted (x : PyPath) : List PyPath → List PyPath
  | [] => [x]
  | y :: ys => if pathLe x y then x :: y :: ys else y :: insertSorted x ys

/-- Insertion sort over paths, modelling `sorted(images)` on line 117. -/
def sortPaths (l : List PyPath) : List PyPath :=
  l.foldr insertSorted []

/-- `find_images` lines 104-117 on an abstract directory listing: keep the
files whose suffix is in the allowed set and whose stem does not end with
`'.min'`, and return them sorted. -/
def find_images (files : List PyPath) : List PyPath :=
  sortPaths (files.filter (fun f => isEligible f.name))

/-- The staleness check inlined at lines 28-30 of `process_photo`:
`if not config['force'] and min_path.exists():`
`    if min_path.stat().st_mtime > filepath.stat().st_mtime: ... skipped`.
Modification times (`st_mtime` floats) are modelled as exact rationals. -/
def should_skip (force outExists : Bool) (outMtime srcMtime : ℚ) : Bool :=
  !force && (outExists && decide (outMtime > srcMtime))

/-! ### Lemmas about names and discovery -/

theorem pySuffix_ne_nil_of_mem_allowed {e : FName} (h : e ∈ allowedExts) :
    e ≠ [] := by
  fin_cases h <;> simp

theorem stem_append_suffix (name : FName) (h : pySuffix name ≠ []) :
    pyStem name ++ pySuffix name = name := by
  unfold pyStem pySuffix at *
  cases hidx : lastDotIdx name with
  | none => simp [hidx] at h
  | some i =>
      by_cases hcond : 0 < i ∧ i < name.length - 1
      · simp [hidx, hcond, List.take_append_drop]
      · simp [hidx, hcond] at h

/-- Take characters up to and including the first dot. -/
def takeThroughDot : FName → FName
  | [] => []
  | c :: cs => if c = '.' then ['.'] else c :: takeThroughDot cs

theorem takeThroughDot_allowed_rev {e : FName} (h : e ∈ allowedExts)
    (t : FName) : takeThroughDot (e.reverse ++ t) = e.reverse := by
  fin_cases h <;> rfl

theorem minName_inj {s₁ s₂ e₁ e₂ : FName}
    (h₁ : e₁ ∈ allowedExts) (h₂ : e₂ ∈ allowedExts)
    (h : s₁ ++ (minMark ++ e₁) = s₂ ++ (minMark ++ e₂)) :
    s₁ = s₂ ∧ e₁ = e₂ := by
  have hrev : e₁.reverse ++ (minMark.reverse ++ s₁.reverse)
      = e₂.reverse ++ (minMark.reverse ++ s₂.reverse) := by
    have := congrArg List.reverse h
    simpa [List.reverse_append, List.append_assoc] using this
  have hext : e₁.reverse = e₂.reverse := by
    have := congrArg takeThroughDot hrev
    rwa [takeThroughDot_allowed_rev h₁, takeThroughDot_allowed_rev h₂] at this
  have he : e₁ = e₂ := by
    have := congrArg List.reverse hext
    simpa using this
  subst he
  refine ⟨?_, rfl⟩
  have hlen : s₁.length = s₂.length := by
    have := congrArg List.length h
    simp at this
    omega
  exact (List.append_inj h hlen).1

theorem mem_insertSorted {x y : PyPath} {l : List PyPath} :
    y ∈ insertSorted x l ↔ y = x ∨ y ∈ l := by
  induction l with
  | nil => simp [insertSorted]
  | cons z zs ih =>
      by_cases h : pathLe x z
      · simp [insertSorted, h]
      · simp [insertSorted, h, ih]
        tauto

theorem mem_sortPaths {y : PyPath} {l : List PyPath} :
    y ∈ sortPaths l ↔ y ∈ l := by
  induction l with
  | nil => simp [sortPaths]
  | cons z zs ih =>
      show y ∈ insertSorted z (sortPaths zs) ↔ _
      rw [mem_insertSorted, ih]
      simp

/-- The concrete filename `photo.min.jpg` from the spec's discovery example. -/
def photoMinJpg : FName :=
  ['p', 'h', 'o', 't', 'o', '.', 'm', 'i', 'n', '.', 'j', 'p', 'g']

/-- A concrete source path `a.jpg`, used by witnesses. -/
def pathA : PyPath := ⟨[], ['a', '.', 'j', 'p', 'g']⟩

/-! ### Claims C1, C6, C7 -/

/-- C1: the staleness check returns `false` whenever `force` is true;
otherwise `false` when the output does not exist; otherwise `true` iff the
output's mtime is strictly greater than the source's; in particular equal
mtimes mean reprocess. -/
theorem c1_should_skip_contract (force outExists : Bool) (outM srcM : ℚ) :
    (force = true → should_skip force outExists outM srcM = false) ∧
    (outExists = false → should_skip force outExists outM srcM = false) ∧
    (force = false → outExists = true →
      (should_skip force outExists outM srcM = true ↔ srcM < outM)) ∧
    (force = false → outExists = true → outM = srcM →
      should_skip force outExists outM srcM = false) := by
  refine ⟨?_, ?_, ?_, ?_⟩
  · intro h; subst h; simp [should_skip]
  · intro h; subst h; simp [should_skip]
  · intro hf he; subst hf; subst he
    simp [should_skip, gt_iff_lt]
  · intro hf he hm; subst hf; subst he; subst hm
    simp [should_skip]

/-- Witness for C1 at concrete inputs. -/
theorem c1_should_skip_contract_witness :
    should_skip true true 2 1 = false ∧
    should_skip false false 2 1 = false ∧
    (should_skip false true 2 1 = true ↔ (1 : ℚ) < 2) ∧
    should_skip false true 1 1 = false :=
  ⟨(c1_should_skip_contract true true 2 1).1 rfl,
   (c1_should_skip_contract false false 2 1).2.1 rfl,
   (c1_should_skip_contract false true 2 1).2.2.1 rfl rfl,
   (c1_should_skip_contract false true 1 1).2.2.2 rfl rfl rfl⟩

/-- C6: discovery returns exactly the files whose extension is
case-sensitively in the allowed set and whose stem does not end in `.min`;
in particular `photo.min.jpg` is never returned. -/
theorem c6_discovery_filter (files : List PyPath) (f : PyPath) :
    (f ∈ find_images files ↔
      f ∈ files ∧ pySuffix f.name ∈ allowedExts ∧ ¬ minMark <:+ pyStem f.name) ∧
    (∀ d : List FName, PyPath.mk d photoMinJpg ∉ find_images files) := by
  have hchar : ∀ g : PyPath, g ∈ find_images files ↔
      g ∈ files ∧ pySuffix g.name ∈ allowedExts ∧ ¬ minMark <:+ pyStem g.name := by
    intro g
    unfold find_images
    rw [mem_sortPaths, List.mem_filter]
    simp [isEligible, and_assoc, ← List.isSuffixOf_iff_suffix]
  refine ⟨hchar f, ?_⟩
  intro d hmem
  have h := ((hchar ⟨d, photoMinJpg⟩).mp hmem).2.2
  have hsuf : minMark <:+ pyStem photoMinJpg := by decide
  exact h hsuf

/-- Witness for C6 at a concrete listing. -/
theorem c6_discovery_filter_witness :
    (pathA ∈ find_images [pathA] ↔
      pathA ∈ [pathA] ∧ pySuffix pathA.name ∈ allowedExts ∧
        ¬ minMark <:+ pyStem pathA.name) ∧
    (∀ d : List FName, PyPath.mk d photoMinJpg ∉ find_images [pathA]) :=
  c6_discovery_filter [pathA] pathA

/-- C7: the derived output path inserts `.min` between stem and extension
in the same directory; the mapping is a function of the source, and two
sources with distinct stems never share an output path. -/
theorem c7_derived_output_path (p q : PyPath)
    (hp : pySuffix p.name ∈ allowedExts) (hq : pySuffix q.name ∈ allowedExts) :
    (minPath p).dir = p.dir ∧
    (minPath p).name = pyStem p.name ++ (minMark ++ pySuffix p.name) ∧
    pyStem p.name ++ pySuffix p.name = p.name ∧
    (minPath p = minPath q → pyStem p.name = pyStem q.name) := by
  refine ⟨rfl, rfl, stem_append_suffix _ (pySuffix_ne_nil_of_mem_allowed hp), ?_⟩
  intro hmin
  have hname : pyStem p.name ++ (minMark ++ pySuffix p.name)
      = pyStem q.name ++ (minMark ++ pySuffix q.name) := by
    have := congrArg PyPath.name hmin
    simpa [minPath, withName] using this
  exact (minName_inj hp hq hname).1

/-- Witness for C7 at a concrete source path. -/
theorem c7_derived_output_path_witness :
    (minPath pathA).dir = pathA.dir ∧
    (minPath pathA).name = pyStem pathA.name ++ (minMark ++ pySuffix pathA.name) ∧
    pyStem pathA.name ++ pySuffix pathA.name = pathA.name ∧
    (minPath pathA = minPath pathA → pyStem pathA.name = pyStem pathA.name) :=
  c7_derived_output_path pathA pathA (by decide) (by decide)

/-! ### The size computation of the transform (C2, C3) -/

/-- Lines 41-42 of `process_photo`:
`ratio = config['min_width'] / width` and
`new_size = (int(width * ratio), int(height * ratio))`.
Python float arithmetic on these values is modelled by exact rationals;
`int()` truncation on the nonnegative values that occur here is
`Int.floor`. -/
def newSize (min_width : ℤ) (width height : ℕ) : ℤ × ℤ :=
  (⌊(width : ℚ) * ((min_width : ℚ) / (width : ℚ))⌋,
   ⌊(height : ℚ) * ((min_width : ℚ) / (width : ℚ))⌋)

/-- Modelled from the spec: the rounding helper of the imaging library's
bounding-box thumbnail capability (the library is outside this repository).
It picks the floor or the ceiling of the exact aspect-preserving length,
whichever the key prefers, never below one pixel. -/
def roundAspect (number : ℚ) (key : ℤ → ℚ) : ℤ :=
  max (if key ⌊number⌋ ≤ key ⌈number⌉ then ⌊number⌋ else ⌈number⌉) 1

/-- Modelled from the spec: the imaging library's thumbnail size
computation, which preserves aspect ratio, must not exceed the requested
bounding box in either dimension, and leaves an image that already fits
untouched.  `none` models the division-by-zero failure raised when the
requested box height is zero (caught by the per-file handler). -/
def thumbnailSize (w h : ℕ) (bx bY : ℤ) : Option (ℤ × ℤ) :=
  if (w : ℤ) ≤ bx ∧ (h : ℤ) ≤ bY then some ((w : ℤ), (h : ℤ))
  else if bY = 0 ∨ h = 0 then none
  else if (w : ℚ) / (h : ℚ) ≤ (bx : ℚ) / (bY : ℚ) then
    some (roundAspect ((bY : ℚ) * ((w : ℚ) / (h : ℚ)))
      (fun n => |(w : ℚ) / (h : ℚ) - (n : ℚ) / (bY : ℚ)|), bY)
  else
    some (bx, roundAspect ((bx : ℚ) / ((w : ℚ) / (h : ℚ)))
      (fun n => if n = 0 then 0 else |(w : ℚ) / (h : ℚ) - (bx : ℚ) / (n : ℚ)|))

/-- Lines 41-45 of `process_photo`: the dimensions of the thumbnail
produced from a `width × height` source at the configured target width. -/
def transformSize (min_width : ℤ) (width height : ℕ) : Option (ℤ × ℤ) :=
  thumbnailSize width height (newSize min_width width height).1
    (newSize min_width width height).2

theorem newSize_fst (min_width : ℤ) (width height : ℕ) (hw : 0 < width) :
    (newSize min_width width height).1 = min_width := by
  have hw' : (width : ℚ) ≠ 0 := Nat.cast_ne_zero.mpr hw.ne'
  have hmul : (width : ℚ) * ((min_width : ℚ) / (width : ℚ)) = (min_width : ℚ) := by
    field_simp
  simp [newSize, hmul]

theorem newSize_snd (min_width : ℤ) (width height : ℕ) :
    (newSize min_width width height).2
      = ⌊(height : ℚ) * (min_width : ℚ) / (width : ℚ)⌋ := by
  simp [newSize, mul_div_assoc]

/-- C2 counterexample: at target width 100 and a 3 × 2 source the code
truncates `2 * (100/3) = 66.67` to 66, while the claim's `round` gives 67,
so the computed pair differs from the claimed one. -/
theorem c2_counterexample :
    newSize 100 3 2 = (100, 66) ∧ round ((2 : ℚ) * ((100 : ℚ) / 3)) = 67 ∧
      newSize 100 3 2 ≠ (100, round ((2 : ℚ) * ((100 : ℚ) / 3))) := by
  have h1 : newSize 100 3 2 = (100, 66) := by
    unfold newSize
    norm_num
  have h2 : round ((2 : ℚ) * ((100 : ℚ) / 3)) = 67 := by
    rw [round_eq, Int.floor_eq_iff]
    norm_num
  refine ⟨h1, h2, ?_⟩
  rw [h1, h2]
  simp

/-- C2 (amended): the ratio is `target_width / W`, and the size handed to
the resize step is `(target_width, ⌊H * target_width / W⌋)` — the height
uses `int()` truncation (floor on these nonnegative values), not `round`. -/
theorem c2_new_size (min_width : ℤ) (width height : ℕ) (hw : 0 < width) :
    newSize min_width width height
      = (min_width, ⌊(height : ℚ) * (min_width : ℚ) / (width : ℚ)⌋) := by
  have h1 := newSize_fst min_width width height hw
  have h2 := newSize_snd min_width width height
  exact Prod.ext h1 h2

/-- Witness for C2 (amended) at a concrete input. -/
theorem c2_new_size_witness :
    0 < 3 ∧ newSize 100 3 2
      = (100, ⌊((2 : ℕ) : ℚ) * ((100 : ℤ) : ℚ) / ((3 : ℕ) : ℚ)⌋) :=
  ⟨by decide, c2_new_size 100 3 2 (by decide)⟩

theorem roundAspect_cases (v : ℚ) (key : ℤ → ℚ) :
    roundAspect v key = max ⌊v⌋ 1 ∨ roundAspect v key = max ⌈v⌉ 1 := by
  unfold roundAspect
  by_cases h : key ⌊v⌋ ≤ key ⌈v⌉
  · exact Or.inl (by rw [if_pos h])
  · exact Or.inr (by rw [if_neg h])

theorem roundAspect_le (v : ℚ) (key : ℤ → ℚ) (n : ℤ)
    (hv : v ≤ (n : ℚ)) (hn : 1 ≤ n) : roundAspect v key ≤ n := by
  have hceil : ⌈v⌉ ≤ n := Int.ceil_le.mpr hv
  have hfloor : ⌊v⌋ ≤ n := le_trans (Int.floor_le_ceil v) hceil
  rcases roundAspect_cases v key with h | h <;> rw [h]
  · exact max_le hfloor hn
  · exact max_le hceil hn

theorem roundAspect_close (v : ℚ) (key : ℤ → ℚ) (hv : 0 ≤ v) :
    |(roundAspect v key : ℚ) - v| ≤ 1 := by
  have hfl := Int.floor_le v
  have hfl2 := Int.lt_floor_add_one v
  have hcl := Int.le_ceil v
  have hcl2 := Int.ceil_lt_add_one v
  rcases roundAspect_cases v key with h | h <;> rw [h]
  · rcases le_or_lt 1 ⌊v⌋ with h1 | h1
    · rw [max_eq_left h1, abs_le]
      constructor <;> push_cast <;> linarith
    · rw [max_eq_right h1.le]
      have hle : (⌊v⌋ : ℚ) ≤ 0 := by exact_mod_cast (by omega : ⌊v⌋ ≤ 0)
      have hv1 : v < 1 := by push_cast at hfl2; linarith
      rw [abs_le]
      constructor <;> push_cast <;> linarith
  · rcases le_or_lt 1 ⌈v⌉ with h1 | h1
    · rw [max_eq_left h1, abs_le]
      constructor <;> push_cast <;> linarith
    · rw [max_eq_right h1.le]
      have hle : (⌈v⌉ : ℚ) ≤ 0 := by exact_mod_cast (by omega : ⌈v⌉ ≤ 0)
      have hv0 : v ≤ 0 := le_trans hcl hle
      rw [abs_le]
      constructor <;> push_cast <;> linarith

/-- C3 counterexample: a valid config (target width 100) on a portrait
100 × 200 source leaves the image at 100 × 200, whose longer dimension 200
exceeds the target width. -/
theorem c3_counterexample :
    transformSize 100 100 200 = some (100, 200) ∧ ¬ (max (100 : ℤ) 200 ≤ 100) := by
  have hns : newSize 100 100 200 = (100, 200) := by
    unfold newSize
    norm_num
  constructor
  · unfold transformSize
    rw [hns]
    unfold thumbnailSize
    norm_num
  · decide

/-- C3 (amended): for positive dimensions, a positive target width and a
scaled height of at least one pixel, the transform's computed size has its
width (not its longer dimension, which for portrait sources is the height)
bounded by the target width, and its aspect ratio matches the source's
within a rounding error of at most one pixel. -/
theorem c3_transform_dims (min_width : ℤ) (width height : ℕ)
    (hw : 1 ≤ width) (hh : 1 ≤ height) (ht : 1 ≤ min_width)
    (hbox : (width : ℤ) ≤ (height : ℤ) * min_width) :
    ∃ a b : ℤ, transformSize min_width width height = some (a, b) ∧
      a ≤ min_width ∧
      (|(a : ℚ) - (b : ℚ) * (width : ℚ) / (height : ℚ)| ≤ 1 ∨
       |(b : ℚ) - (a : ℚ) * (height : ℚ) / (width : ℚ)| ≤ 1) := by
  have hw0 : (0 : ℚ) < (width : ℚ) := by exact_mod_cast hw
  have hh0 : (0 : ℚ) < (height : ℚ) := by exact_mod_cast hh
  have hhne : (height : ℚ) ≠ 0 := hh0.ne'
  have hm0 : (0 : ℚ) ≤ (min_width : ℚ) := by
    exact_mod_cast (by omega : (0 : ℤ) ≤ min_width)
  have hfst := newSize_fst min_width width height (by omega)
  have hsnd := newSize_snd min_width width height
  unfold transformSize
  rw [hfst, hsnd]
  set v2 := ⌊(height : ℚ) * (min_width : ℚ) / (width : ℚ)⌋ with hv2def
  have hv21 : 1 ≤ v2 := by
    rw [hv2def, Int.le_floor]
    push_cast
    rw [le_div_iff₀ hw0]
    have hbox' : (width : ℚ) ≤ (height : ℚ) * (min_width : ℚ) := by
      exact_mod_cast hbox
    linarith
  have hv2pos : (0 : ℚ) < (v2 : ℚ) := by exact_mod_cast (by omega : (0 : ℤ) < v2)
  unfold thumbnailSize
  by_cases hfit : (width : ℤ) ≤ min_width ∧ (height : ℤ) ≤ v2
  · rw [if_pos hfit]
    refine ⟨(width : ℤ), (height : ℤ), rfl, hfit.1, Or.inl ?_⟩
    push_cast
    have hsimp : (height : ℚ) * (width : ℚ) / (height : ℚ) = (width : ℚ) := by
      field_simp
    rw [hsimp]
    simp
  · rw [if_neg hfit]
    have hne : ¬ (v2 = 0 ∨ height = 0) := by
      push_neg
      exact ⟨by omega, by omega⟩
    rw [if_neg hne]
    by_cases hasp : (width : ℚ) / (height : ℚ) ≤ (min_width : ℚ) / (v2 : ℚ)
    · rw [if_pos hasp]
      refine ⟨_, v2, rfl, ?_, Or.inl ?_⟩
      · apply roundAspect_le _ _ _ ?_ ht
        calc (v2 : ℚ) * ((width : ℚ) / (height : ℚ))
            ≤ (v2 : ℚ) * ((min_width : ℚ) / (v2 : ℚ)) :=
              mul_le_mul_of_nonneg_left hasp hv2pos.le
          _ = (min_width : ℚ) := by field_simp
      · rw [mul_div_assoc]
        exact roundAspect_close _ _
          (mul_nonneg hv2pos.le (div_nonneg hw0.le hh0.le))
    · rw [if_neg hasp]
      refine ⟨min_width, _, rfl, le_refl _, Or.inr ?_⟩
      have hveq : (min_width : ℚ) / ((width : ℚ) / (height : ℚ))
          = (min_width : ℚ) * (height : ℚ) / (width : ℚ) :=
        div_div_eq_mul_div _ _ _
      rw [← hveq]
      exact roundAspect_close _ _
        (div_nonneg hm0 (div_nonneg hw0.le hh0.le))

/-- Witness for C3 (amended): a landscape 200 × 100 source at target
width 100. -/
theorem c3_transform_dims_witness :
    ∃ a b : ℤ, transformSize 100 200 100 = some (a, b) ∧
      a ≤ 100 ∧
      (|(a : ℚ) - (b : ℚ) * ((200 : ℕ) : ℚ) / ((100 : ℕ) : ℚ)| ≤ 1 ∨
       |(b : ℚ) - (a : ℚ) * ((100 : ℕ) : ℚ) / ((200 : ℕ) : ℚ)| ≤ 1) :=
  c3_transform_dims 100 200 100 (by decide) (by decide) (by decide) (by decide)

/-! ### The per-file worker (C4, C5, C9, C10) -/

/-- A drawing operation recorded on an image:
`draw.text((x, y), text, font, fill)` with an exact rational `x` (Python
float division) and an integer `y`. -/
inductive DrawOp where
  | text (pos : ℚ × ℤ) (content : String) (fill : ℕ × ℕ × ℕ)
deriving DecidableEq

/-- A raster image: its pixel dimensions and the overlays drawn onto it. -/
structure Img where
  width : ℕ
  height : ℕ
  ops : List DrawOp
deriving DecidableEq

/-- A loaded font: `ImageFont.truetype(path, size)` or the built-in
`ImageFont.load_default()`. -/
inductive Font where
  | truetype (path : FName) (size : ℕ)
  | fallback
deriving DecidableEq

/-- The worker configuration dict assembled in `main` lines 190-198. -/
structure Config where
  min_width : ℤ
  quality : ℤ
  force : Bool
  watermark : Bool
  watermark_text : String
  font_path : FName
  fontsize : ℕ
deriving DecidableEq

/-- The worker's external capabilities: the filesystem (`exists`,
`stat().st_mtime`) and the imaging library (decode, font loading, text
measuring, text drawing, thumbnail resize, JPEG encode).  A fallible
Python call is `Except String`, `error e` being a raised exception with
message `e`; `drawFails` gives the exception `draw.text` would raise, if
any. -/
structure Env where
  decode : PyPath → Except String Img
  loadFont : FName → ℕ → Except String Font
  textbbox : String → Font → Except String (ℤ × ℤ × ℤ × ℤ)
  drawFails : (ℚ × ℤ) → String → Option String
  thumbnailOp : Img → ℤ × ℤ → Except String Img
  save : PyPath → Img → ℤ → Except String Unit
  outExists : PyPath → Bool
  mtime : PyPath → ℚ

/-- Lines 71-76 of `add_watermark`: try to load the configured truetype
font, falling back to the built-in default on any failure. -/
def loadedFont (env : Env) (config : Config) : Font :=
  match env.loadFont config.font_path config.fontsize with
  | Except.ok f => f
  | Except.error _ => Font.fallback

/-- Lines 65-93: `add_watermark(img, config)`.  The drawing happens on a
copy (`img = img.copy()`; the embedding is pure, so the caller's image
value is untouched): the text box is measured, the position computed as
`x = (width - t_w) / 2` (exact rational) and `y = height - 2 * t_h`, and
the text drawn in light gray `(235, 235, 235)`. -/
def add_watermark (env : Env) (img0 : Img) (config : Config) :
    Except String Img :=
  let img := img0
  let font := loadedFont env config
  let wtext := config.watermark_text
  match env.textbbox wtext font with
  | Except.error e => Except.error e
  | Except.ok bbox =>
      let t_w : ℤ := bbox.2.2.1 - bbox.1
      let t_h : ℤ := bbox.2.2.2 - bbox.2.1
      let x : ℚ := ((img.width : ℚ) - (t_w : ℚ)) / 2
      let y : ℤ := (img.height : ℤ) - 2 * t_h
      match env.drawFails (x, y) wtext with
      | some e => Except.error e
      | none =>
          Except.ok { width := img.width, height := img.height,
                      ops := img.ops ++ [DrawOp.text (x, y) wtext (235, 235, 235)] }

/-- The per-file result dict `{'status': ..., 'file': ..., ['error': ...]}`
returned at lines 30, 60 and 62. -/
inductive Outcome where
  | processed (file : FName)
  | skipped (file : FName)
  | error (file : FName) (msg : String)
deriving DecidableEq

/-- The `status` field of an outcome. -/
def Outcome.status : Outcome → String
  | Outcome.processed _ => "processed"
  | Outcome.skipped _ => "skipped"
  | Outcome.error _ _ => "error"

/-- The `try` block of `process_photo`, lines 32-60: decode, read the
size, optionally watermark (only when the flag is set and the text is
non-empty), compute the new size from the pre-watermark width, resize,
save. -/
def tryBody (env : Env) (filepath : PyPath) (config : Config)
    (min_path : PyPath) : Except String Unit :=
  match env.decode filepath with
  | Except.error e => Except.error e
  | Except.ok img =>
      let width := img.width
      let height := img.height
      let step2 : Except String Img :=
        if config.watermark && !(config.watermark_text == "") then
          add_watermark env img config
        else Except.ok img
      match step2 with
      | Except.error e => Except.error e
      | Except.ok img2 =>
          match env.thumbnailOp img2 (newSize config.min_width width height) with
          | Except.error e => Except.error e
          | Except.ok thumb => env.save min_path thumb config.quality

/-- Lines 21-62: `process_photo((filepath, config))`.  The staleness check
of lines 28-30 (via `should_skip`) may return a skipped outcome; otherwise
the `try` body runs and any exception is caught and converted into an
error outcome carrying `filepath.name`. -/
def process_photo (env : Env) (filepath : PyPath) (config : Config) : Outcome :=
  let min_path := minPath filepath
  if should_skip config.force (env.outExists min_path)
      (env.mtime min_path) (env.mtime filepath) then
    Outcome.skipped filepath.name
  else
    match tryBody env filepath config min_path with
    | Except.ok _ => Outcome.processed filepath.name
    | Except.error e => Outcome.error filepath.name e

/-- Lines 211-222: the orchestrator maps `process_photo` over all work
items (`executor.map` preserves input order). -/
def runBatch (env : Env) (config : Config) (files : List PyPath) :
    List Outcome :=
  files.map (fun f => process_photo env f config)

/-- Lines 226-228: the summary counts outcomes with a given status. -/
def countStatus (rs : List Outcome) (s : String) : ℕ :=
  (rs.filter (fun r => r.status == s)).length

/-- C4: an exception raised anywhere in the decode / watermark composite /
resize / encode pipeline is caught and converted into an error outcome
carrying the file's display name and the exception message; the per-file
call always returns an outcome, so it never aborts sibling work — a batch
always yields one outcome per input file. -/
theorem c4_errors_caught (env : Env) (filepath : PyPath) (config : Config)
    (e : String)
    (hskip : should_skip config.force (env.outExists (minPath filepath))
      (env.mtime (minPath filepath)) (env.mtime filepath) = false)
    (hfail : tryBody env filepath config (minPath filepath) = Except.error e) :
    process_photo env filepath config = Outcome.error filepath.name e ∧
    ∀ files : List PyPath,
      (runBatch env config files).length = files.length := by
  constructor
  · unfold process_photo
    dsimp only
    rw [hskip, hfail]
    rfl
  · intro files
    simp [runBatch]

/-- An environment whose decoder always raises, for the C4 witness. -/
def envBoom : Env :=
  { decode := fun _ => Except.error "boom",
    loadFont := fun _ _ => Except.error "nofont",
    textbbox := fun _ _ => Except.ok (0, 0, 2, 1),
    drawFails := fun _ _ => none,
    thumbnailOp := fun i _ => Except.ok i,
    save := fun _ _ _ => Except.ok (),
    outExists := fun _ => false,
    mtime := fun _ => 0 }

/-- The CLI-default worker configuration of `main`. -/
def cfgDefault : Config :=
  { min_width := 1200, quality := 85, force := false, watermark := false,
    watermark_text := "", font_path := [], fontsize := 48 }

/-- Witness for C4: a failing decode is reported as an error outcome. -/
theorem c4_errors_caught_witness :
    process_photo envBoom pathA cfgDefault = Outcome.error pathA.name "boom" ∧
    ∀ files : List PyPath,
      (runBatch envBoom cfgDefault files).length = files.length :=
  c4_errors_caught envBoom pathA cfgDefault "boom" rfl rfl

/-- C5: with `force = false` and every output newer than its source, a
batch run yields all skipped outcomes and zero processed ones. -/
theorem c5_second_run_skips (env : Env) (config : Config)
    (files : List PyPath) (hforce : config.force = false)
    (hmt : ∀ f ∈ files, env.outExists (minPath f) = true ∧
      env.mtime f < env.mtime (minPath f)) :
    runBatch env config files
      = files.map (fun f => Outcome.skipped f.name) ∧
    countStatus (runBatch env config files) "processed" = 0 := by
  have hall : ∀ f ∈ files,
      process_photo env f config = Outcome.skipped f.name := by
    intro f hf
    obtain ⟨hex, hlt⟩ := hmt f hf
    unfold process_photo
    have hskip : should_skip config.force (env.outExists (minPath f))
        (env.mtime (minPath f)) (env.mtime f) = true := by
      rw [hforce, hex]
      simp [should_skip, hlt]
    dsimp only
    rw [hskip]
    rfl
  have h1 : runBatch env config files
      = files.map fun f => Outcome.skipped f.name :=
    List.map_congr_left hall
  refine ⟨h1, ?_⟩
  rw [h1]
  have hnil : (files.map fun f => Outcome.skipped f.name).filter
      (fun r => r.status == "processed") = [] := by
    rw [List.filter_eq_nil_iff]
    intro a ha
    obtain ⟨f, hf, rfl⟩ := List.mem_map.mp ha
    simp [Outcome.status]
  simp [countStatus, hnil]

/-- An environment in which every derived output is newer than its
source, for the C5 witness. -/
def envFresh : Env :=
  { decode := fun _ => Except.error "unused",
    loadFont := fun _ _ => Except.error "nofont",
    textbbox := fun _ _ => Except.ok (0, 0, 2, 1),
    drawFails := fun _ _ => none,
    thumbnailOp := fun i _ => Except.ok i,
    save := fun _ _ _ => Except.ok (),
    outExists := fun _ => true,
    mtime := fun p => if p = minPath pathA then 1 else 0 }

/-- Witness for C5 on a one-file batch. -/
theorem c5_second_run_skips_witness :
    runBatch envFresh cfgDefault [pathA]
      = [pathA].map (fun f => Outcome.skipped f.name) ∧
    countStatus (runBatch envFresh cfgDefault [pathA]) "processed" = 0 :=
  c5_second_run_skips envFresh cfgDefault [pathA] rfl (by
    intro f hf
    have hfa : f = pathA := by simpa using hf
    subst hfa
    refine ⟨rfl, ?_⟩
    show envFresh.mtime pathA < envFresh.mtime (minPath pathA)
    have h1 : envFresh.mtime pathA = 0 := by
      show (if pathA = minPath pathA then (1 : ℚ) else 0) = 0
      rw [if_neg (by decide)]
    have h2 : envFresh.mtime (minPath pathA) = 1 := by
      show (if minPath pathA = minPath pathA then (1 : ℚ) else 0) = 1
      rw [if_pos rfl]
    rw [h1, h2]
    norm_num)

/-- C9: the watermark text is drawn at horizontal position exactly
`(W - T) / 2` (exact rational) and vertical position exactly
`H - 2 * t_h`, where `T` and `t_h` are the rendered bounding box's width
and height, onto a copy: the result extends the input image's overlay
list with dimensions preserved, the input value itself untouched. -/
theorem c9_watermark_position (env : Env) (img : Img) (config : Config)
    (b0 b1 b2 b3 : ℤ)
    (hbb : env.textbbox config.watermark_text (loadedFont env config)
      = Except.ok (b0, b1, b2, b3))
    (hdraw : env.drawFails
      (((img.width : ℚ) - ((b2 - b0 : ℤ) : ℚ)) / 2,
        (img.height : ℤ) - 2 * (b3 - b1)) config.watermark_text = none) :
    add_watermark env img config
      = Except.ok
          { width := img.width, height := img.height,
            ops := img.ops ++
              [DrawOp.text
                (((img.width : ℚ) - ((b2 - b0 : ℤ) : ℚ)) / 2,
                  (img.height : ℤ) - 2 * (b3 - b1))
                config.watermark_text (235, 235, 235)] } := by
  unfold add_watermark
  dsimp only
  rw [hbb]
  dsimp only
  rw [hdraw]

/-- A concrete 4 × 2 image for the C9 witness. -/
def imgA : Img := { width := 4, height := 2, ops := [] }

/-- A configuration with the watermark enabled and text `"w"`. -/
def cfgWm : Config :=
  { min_width := 1200, quality := 85, force := false, watermark := true,
    watermark_text := "w", font_path := [], fontsize := 48 }

/-- Witness for C9 with a 2 × 1 text box on the 4 × 2 image. -/
theorem c9_watermark_position_witness :
    add_watermark envBoom imgA cfgWm
      = Except.ok
          { width := imgA.width, height := imgA.height,
            ops := imgA.ops ++
              [DrawOp.text
                (((imgA.width : ℚ) - ((2 - 0 : ℤ) : ℚ)) / 2,
                  (imgA.height : ℤ) - 2 * (1 - 0))
                cfgWm.watermark_text (235, 235, 235)] } :=
  c9_watermark_position envBoom imgA cfgWm 0 0 2 1 rfl rfl

/-- C10: the worker is total — every call returns an outcome whose status
is `processed`, `skipped` or `error` — and an enabled watermark flag with
empty watermark text behaves exactly like a disabled watermark (the
thumbnail is produced without any watermark). -/
theorem c10_worker_total (env : Env) (filepath : PyPath) (config : Config) :
    ((process_photo env filepath config).status = "processed" ∨
     (process_photo env filepath config).status = "skipped" ∨
     (process_photo env filepath config).status = "error") ∧
    (config.watermark_text = "" →
      process_photo env filepath config
        = process_photo env filepath { config with watermark := false }) := by
  constructor
  · cases h : process_photo env filepath config <;> simp [Outcome.status]
  · intro htext
    unfold process_photo tryBody
    simp [htext]

/-- A configuration with the watermark flag set but empty text. -/
def cfgWmEmpty : Config :=
  { min_width := 1200, quality := 85, force := false, watermark := true,
    watermark_text := "", font_path := [], fontsize := 48 }

/-- Witness for C10 at a concrete environment and configuration. -/
theorem c10_worker_total_witness :
    ((process_photo envBoom pathA cfgWmEmpty).status = "processed" ∨
     (process_photo envBoom pathA cfgWmEmpty).status = "skipped" ∨
     (process_photo envBoom pathA cfgWmEmpty).status = "error") ∧
    (cfgWmEmpty.watermark_text = "" →
      process_photo envBoom pathA cfgWmEmpty
        = process_photo envBoom pathA { cfgWmEmpty with watermark := false }) :=
  c10_worker_total envBoom pathA cfgWmEmpty

/-! ### The entry point (C8) -/

/-- The parsed command-line arguments of `main`, lines 143-161. -/
structure Args where
  min_width : ℤ
  quality : ℤ
  workers : ℕ
  force : Bool
  no_recursive : Bool
  watermark : Bool
  watermark_text : String
  font_path : FName
  fontsize : ℕ
deriving DecidableEq

/-- The process-level result of `main`: a fatal validation exit
(`sys.exit(1)` before any processing), the empty-discovery exit
(`sys.exit(0)`), or a completed batch run. -/
inductive MainResult where
  | fatal
  | noImages
  | completed (outcomes : List Outcome)
deriving DecidableEq

/-- The process exit code of each result: `main` falls off its end after
a completed batch, which is exit code 0 in Python. -/
def exitCode : MainResult → ℕ
  | MainResult.fatal => 1
  | MainResult.noImages => 0
  | MainResult.completed _ => 0

/-- The per-file outcomes a run produced (none for the early exits). -/
def outcomesOf : MainResult → List Outcome
  | MainResult.completed rs => rs
  | _ => []

/-- `main`, lines 163-241: validate quality (lines 166-168) then width
(lines 170-172), discover (`find_images` exits 1 when the directory does
not exist, lines 100-102; `main` exits 0 when no images were found, lines
178-181), disable the watermark when no text was given (lines 185-187),
build the config (lines 190-198) and run the batch to completion. -/
def mainRun (env : Env) (args : Args) (dirExists : Bool)
    (listing : List PyPath) : MainResult :=
  if args.quality < 1 ∨ args.quality > 100 then MainResult.fatal
  else if args.min_width < 100 then MainResult.fatal
  else if !dirExists then MainResult.fatal
  else if find_images listing = [] then MainResult.noImages
  else
    MainResult.completed (runBatch env
      { min_width := args.min_width, quality := args.quality,
        force := args.force,
        watermark := args.watermark && !(args.watermark_text == ""),
        watermark_text := args.watermark_text,
        font_path := args.font_path, fontsize := args.fontsize }
      (find_images listing))

/-- C8: empty discovery exits 0; a missing directory, a quality outside
`[1, 100]` or a width below 100 exit 1 before any file is processed; a
completed batch exits 0 regardless of how many per-file errors occurred. -/
theorem c8_exit_codes (env : Env) (args : Args) (dirExists : Bool)
    (listing : List PyPath) :
    ((args.quality < 1 ∨ 100 < args.quality ∨ args.min_width < 100 ∨
        dirExists = false) →
      mainRun env args dirExists listing = MainResult.fatal ∧
      exitCode (mainRun env args dirExists listing) = 1 ∧
      outcomesOf (mainRun env args dirExists listing) = []) ∧
    (1 ≤ args.quality → args.quality ≤ 100 → 100 ≤ args.min_width →
      dirExists = true → find_images listing = [] →
      mainRun env args dirExists listing = MainResult.noImages ∧
      exitCode (mainRun env args dirExists listing) = 0) ∧
    (∀ rs : List Outcome,
      mainRun env args dirExists listing = MainResult.completed rs →
      exitCode (mainRun env args dirExists listing) = 0) := by
  refine ⟨?_, ?_, ?_⟩
  · intro h
    have hfatal : mainRun env args dirExists listing = MainResult.fatal := by
      unfold mainRun
      rcases h with h | h | h | h
      · rw [if_pos (Or.inl h)]
      · rw [if_pos (Or.inr h)]
      · by_cases h1 : args.quality < 1 ∨ args.quality > 100
        · rw [if_pos h1]
        · rw [if_neg h1, if_pos h]
      · subst h
        by_cases h1 : args.quality < 1 ∨ args.quality > 100
        · rw [if_pos h1]
        · rw [if_neg h1]
          by_cases h2 : args.min_width < 100
          · rw [if_pos h2]
          · rw [if_neg h2]
            rfl
    exact ⟨hfatal, by rw [hfatal]; rfl, by rw [hfatal]; rfl⟩
  · intro h1 h2 h3 h4 h5
    have hni : mainRun env args dirExists listing = MainResult.noImages := by
      unfold mainRun
      rw [if_neg (by omega), if_neg (by omega)]
      subst h4
      simp [h5]
    exact ⟨hni, by rw [hni]; rfl⟩
  · intro rs h
    rw [h]
    rfl

/-- The CLI-default arguments. -/
def argsBase : Args :=
  { min_width := 1200, quality := 85, workers := 4, force := false,
    no_recursive := false, watermark := false, watermark_text := "",
    font_path := [], fontsize := 48 }

/-- Witness for C8: quality 150 and width 50 are fatal, an empty
directory exits 0 with no images. -/
theorem c8_exit_codes_witness :
    (mainRun envBoom { argsBase with quality := 150 } true []
        = MainResult.fatal ∧
      exitCode (mainRun envBoom { argsBase with quality := 150 } true []) = 1 ∧
      outcomesOf (mainRun envBoom { argsBase with quality := 150 } true [])
        = []) ∧
    (mainRun envBoom { argsBase with min_width := 50 } true []
        = MainResult.fatal ∧
      exitCode (mainRun envBoom { argsBase with min_width := 50 } true []) = 1 ∧
      outcomesOf (mainRun envBoom { argsBase with min_width := 50 } true [])
        = []) ∧
    (mainRun envBoom argsBase true [] = MainResult.noImages ∧
      exitCode (mainRun envBoom argsBase true []) = 0) :=
  ⟨(c8_exit_codes envBoom { argsBase with quality := 150 } true []).1
      (Or.inr (Or.inl (by decide))),
   (c8_exit_codes envBoom { argsBase with min_width := 50 } true []).1
      (Or.inr (Or.inr (Or.inl (by decide)))),
   (c8_exit_codes envBoom argsBase true []).2.1
      (by decide) (by decide) (by decide) rfl rfl⟩
